import Mathlib

/-!
Verification of the routing / fallback / response-normalization core of the
AI worker proxy.  Definitions are shallow embeddings of `src/router.ts` and
`src/providers/cloudflare-ai.ts`; the route table is an association list in
configuration insertion order, upstream payload shapes are tagged unions of
the shapes the code probes for, and the background streaming task is modelled
by the list of frames it writes.  Functions from `utils/response-mapper.ts`
(not part of the sources at hand) are modelled from the specification and
marked as such.
-/

/-- A provider configuration entry (shape of `ProviderConfig` from `types.ts`
as used by `router.ts`): provider family tag and model identifier.  The
credential list is consumed only by the token manager, which is abstracted
here. -/
structure ProviderConfig where
  provider : String
  model : String
deriving DecidableEq

/-- `ProxyError` from `utils/error-handler.ts` as constructed by `router.ts`:
a message and a numeric status classification. -/
structure ProxyError where
  message : String
  statusCode : Nat
deriving DecidableEq

/-- Canonical `function` payload of a tool call (OpenAI schema). -/
structure FunctionCall where
  name : String
  arguments : String
deriving DecidableEq

/-- Canonical tool call (OpenAI schema). -/
structure ToolCall where
  id : String
  type : String
  function : FunctionCall
deriving DecidableEq

/-- Canonical chat message of a non-streaming response.  Optional fields are
`Option`s: `none` models an absent / `null` JSON field. -/
structure ChatMessage where
  role : String
  content : Option String
  tool_calls : Option (List ToolCall)
deriving DecidableEq

/-- One element of `choices` in a canonical response. -/
structure Choice where
  message : ChatMessage
  finish_reason : String
deriving DecidableEq

/-- Canonical non-streaming response envelope (the parts the claims are
about: model and choices). -/
structure OpenAIResponse where
  model : String
  choices : List Choice
deriving DecidableEq

/-- Delta of one canonical streaming chunk; `none` models an absent field,
so the emitted JSON object contains exactly the `some` fields. -/
structure StreamDelta where
  role : Option String
  content : Option String
  tool_calls : Option (List ToolCall)
deriving DecidableEq

/-- One serialized frame written to the output stream: either a canonical
chunk (`data: <json-chunk>`) with its delta and optional finish reason, or
the literal `data: [DONE]` sentinel. -/
inductive Frame where
  | chunk (delta : StreamDelta) (finish_reason : Option String)
  | done
deriving DecidableEq

/-- `ProviderResponse` from `types.ts` as used by `router.ts` and the
adapter: a success flag plus optional response envelope, stream handle,
error message and status classification.  A stream handle is modelled by
the list of frames the background task writes to it. -/
structure ProviderResponse where
  success : Bool
  response : Option OpenAIResponse
  stream : Option (List Frame)
  error : Option String
  statusCode : Option Nat
deriving DecidableEq

/-! ### Router: route resolution (`Router.getProvidersForRoute`) -/

/-- JS `String.prototype.startsWith`: is the second string a leading
substring of the first?  Embedded at the character level. -/
def strStartsWith (s lead : String) : Bool :=
  lead.data.isPrefixOf s.data

/-- Path normalization from `getProvidersForRoute`: ensure a leading `/`. -/
def normalizePath (path : String) : String :=
  if strStartsWith path "/" then path else "/" ++ path

/-- `Router.getProvidersForRoute`.  `routes` is the parsed `ROUTES_CONFIG`
object as an association list in insertion order (`Object.entries` /
`Object.values` iterate string keys in insertion order).  Exact key lookup
first, then the first route whose key is a leading substring of the
normalized path, then the first-inserted route as default, else a 404
`ProxyError` (thrown in the source, modelled by `Except.error`). -/
def getProvidersForRoute (routes : List (String × List ProviderConfig)) (path : String) :
    Except ProxyError (List ProviderConfig) :=
  let normalizedPath := normalizePath path
  match routes.find? (fun r => r.1 == normalizedPath) with
  | some r => .ok r.2
  | none =>
    match routes.find? (fun r => strStartsWith normalizedPath r.1) with
    | some r => .ok r.2
    | none =>
      match routes with
      | r :: _ => .ok r.2
      | [] => .error { message := "No providers configured for route: " ++ path, statusCode := 404 }

/-! ### Router: fallback execution (`Router.executeWithFallback`) -/

/-- Outcome of one `TokenManager.executeWithRotation` call (the token
manager itself lives outside these sources): the call either returns a
`ProviderResponse`, or raises; a raised fault is modelled by its message
text. -/
inductive RotationOutcome where
  | ok (resp : ProviderResponse)
  | exn (message : String)
deriving DecidableEq

/-- A provider attempt fails when the rotation call returns an
unsuccessful response or raises. -/
def attemptFails : RotationOutcome → Bool
  | .ok resp => !resp.success
  | .exn _ => true

/-- The value assigned to `lastError` by a failing attempt: the response's
`error` field (possibly absent) in the returned case, the fault's message
in the raised case. -/
def lastObserved : RotationOutcome → Option String
  | .ok resp => resp.error
  | .exn m => some m

/-- `lastError?.message || lastError || 'Unknown error'` for a `lastError`
that is absent or an error text (an absent or empty text is falsy).  Faults
are modelled by their message text. -/
def lastErrorText : Option String → String
  | none => "Unknown error"
  | some s => if s = "" then "Unknown error" else s

/-- The aggregate failure returned when the provider loop exhausts all
providers. -/
def allProvidersFailed (lastError : Option String) : ProviderResponse :=
  { success := false
    response := none
    stream := none
    error := some ("All providers failed. Last error: " ++ lastErrorText lastError)
    statusCode := some 500 }

/-- The provider loop of `executeWithFallback`.  `rotate i` models
`new TokenManager(providers[i], env).executeWithRotation(request)`; `idxs`
is the list of remaining provider indices and `lastError` the accumulator.
Besides the result, the model returns the trace of provider indices on
which a rotation call was made, in call order, so that claims about which
providers are invoked can be stated. -/
def fallbackLoop (rotate : Nat → RotationOutcome) :
    List Nat → Option String → ProviderResponse × List Nat
  | [], lastError => (allProvidersFailed lastError, [])
  | i :: rest, _ =>
    match rotate i with
    | .ok resp =>
      if resp.success then (resp, [i])
      else
        let r := fallbackLoop rotate rest resp.error
        (r.1, i :: r.2)
    | .exn m =>
      let r := fallbackLoop rotate rest (some m)
      (r.1, i :: r.2)

/-- `Router.executeWithFallback`: resolve the providers for the path (a
resolution failure propagates, uncaught in the source), then try each
provider in order. -/
def executeWithFallback (routes : List (String × List ProviderConfig)) (path : String)
    (rotate : Nat → RotationOutcome) : Except ProxyError (ProviderResponse × List Nat) :=
  match getProvidersForRoute routes path with
  | .error e => .error e
  | .ok providers => .ok (fallbackLoop rotate (List.range providers.length) none)

/-! ### Provider adapter (`CloudflareAIProvider`) -/

/-- A function definition of a declared tool (the part of `Tool` the
adapter claims depend on). -/
structure FunctionDef where
  name : String
  description : Option String
deriving DecidableEq

/-- A declared tool from the canonical request. -/
structure Tool where
  type : String
  function : FunctionDef
deriving DecidableEq

/-- One tool invocation as found in an upstream Cloudflare AI payload:
a name and the invocation arguments.  Upstream argument values are
modelled by their JSON serialization, so `JSON.stringify` on them is the
identity. -/
structure CFToolCall where
  name : String
  arguments : String
deriving DecidableEq

/-- `JSON.stringify(call.arguments)`; the identity under the modelling of
argument values by their serialization. -/
def jsonStringify (v : String) : String := v

/-- The synthesized id of the tool call at position `index` in the batch:
the template literal interpolates `Date.now()` (here `timestamp`) and the
position in decimal. -/
def toolCallId (timestamp : Nat) (index : Nat) : String :=
  "call_" ++ Nat.repr timestamp ++ "_" ++ Nat.repr index

/-- Index-tracking recursion underlying
`cfToolCalls.map((call, index) => ...)` in `convertToolCalls`.  `now i`
models the value of `Date.now()` at the moment the element at position `i`
is converted (the clock may tick between elements). -/
def convertToolCallsGo (now : Nat → Nat) : Nat → List CFToolCall → List ToolCall
  | _, [] => []
  | index, call :: rest =>
    { id := toolCallId (now index) index
      type := "function"
      function := { name := call.name, arguments := jsonStringify call.arguments } }
      :: convertToolCallsGo now (index + 1) rest

/-- `CloudflareAIProvider.convertToolCalls`: convert upstream tool calls to
the canonical shape, synthesizing an id per call. -/
def convertToolCalls (now : Nat → Nat) (cfToolCalls : List CFToolCall) : List ToolCall :=
  convertToolCallsGo now 0 cfToolCalls

/-- Shape of one upstream non-streaming Cloudflare AI result, as probed by
`handleNonStream`: either a bare string, or an object with an optional
`response` text field and optional `tool_calls`. -/
inductive CFResult where
  | str (s : String)
  | obj (response : Option String) (tool_calls : Option (List CFToolCall))
deriving DecidableEq

/-- The content extraction of `handleNonStream`: a truthy `response` field
wins, else a bare string result, else the empty string.  (An empty
`response` field is falsy and an object is not a string, so both the
`none` and `some ""` cases leave the content empty, which `getD ""`
reproduces.) -/
def extractContent : CFResult → String
  | .str s => s
  | .obj r _ => r.getD ""

/-- Modelled from the spec: `createOpenAIResponse` lives in
`utils/response-mapper.ts`, which is not among the sources at hand.  Per
the Response Normalizer contract it builds the canonical non-streaming
envelope for a plain-text result: one choice whose message has role
`assistant` and the given content, with finish reason `stop` (the
finish reason when no tool calls are present). -/
def createOpenAIResponse (content : String) (model : String) : OpenAIResponse :=
  { model := model
    choices := [{ message := { role := "assistant", content := some content, tool_calls := none }
                  finish_reason := "stop" }] }

/-- In-place mutation of `choices[0]`, as a functional update of the head
of the choices list. -/
def updateFirstChoice (r : OpenAIResponse) (f : Choice → Choice) : OpenAIResponse :=
  { r with choices := match r.choices with
                      | [] => []
                      | c :: rest => f c :: rest }

/-- `CloudflareAIProvider.handleNonStream`: extract content, build the
canonical response, then, when the upstream payload carries a non-empty
`tool_calls` array, overwrite `choices[0]` with the converted tool calls,
null content and finish reason `tool_calls`. -/
def handleNonStream (model : String) (now : Nat → Nat) (upstream : CFResult) : ProviderResponse :=
  let content := extractContent upstream
  let openAIResponse := createOpenAIResponse content model
  let openAIResponse :=
    match upstream with
    | .obj _ (some tcs) =>
      if tcs.length > 0 then
        updateFirstChoice openAIResponse fun c =>
          { message := { c.message with tool_calls := some (convertToolCalls now tcs)
                                        content := none }
            finish_reason := "tool_calls" }
      else openAIResponse
    | _ => openAIResponse
  { success := true, response := some openAIResponse, stream := none, error := none,
    statusCode := none }

/-- Shape of one upstream streaming chunk, as probed by `handleStream`:
a bare string, an object whose `response` field is truthy (`obj s tc`
stands for an object with `response` text `s` and optional `tool_calls`
`tc`), or a byte chunk decoded to text. -/
inductive CFStreamValue where
  | str (s : String)
  | obj (response : String) (tool_calls : Option (List CFToolCall))
  | bytes (decoded : String)
deriving DecidableEq

/-- The `text` extracted from an upstream streaming chunk. -/
def streamTextOf : CFStreamValue → String
  | .str s => s
  | .obj r _ => r
  | .bytes s => s

/-- The `toolCalls` extracted from an upstream streaming chunk (only the
object shape carries them). -/
def streamToolCallsOf : CFStreamValue → Option (List CFToolCall)
  | .obj _ tc => tc
  | _ => none

/-- Modelled from the spec: `createStreamChunk` lives in
`utils/response-mapper.ts`, which is not among the sources at hand.  Per
the Response Normalizer contract it serializes one canonical chunk from a
delta, the model and an optional finish reason; serialization is
abstracted, so the frame carries the delta and finish reason and the
`[DONE]` sentinel is a separate frame. -/
def createStreamChunk (delta : StreamDelta) (_model : String) (finishReason : Option String) :
    Frame :=
  Frame.chunk delta finishReason

/-- The per-upstream-chunk emission decision of `handleStream`: a chunk
with a non-empty `toolCalls` array emits a tool-call delta, else a chunk
with non-empty text emits a content delta, else nothing is emitted.  The
first emitted delta of a stream additionally carries role `assistant`. -/
def frameFor (model : String) (now : Nat → Nat) (isFirst : Bool) (v : CFStreamValue) :
    Option Frame :=
  let text := streamTextOf v
  let toolCalls := streamToolCallsOf v
  if (toolCalls.getD []).length > 0 then
    some (createStreamChunk
      { role := if isFirst then some "assistant" else none
        content := none
        tool_calls := some (convertToolCalls now (toolCalls.getD [])) } model none)
  else if text ≠ "" then
    some (createStreamChunk
      { role := if isFirst then some "assistant" else none
        content := some text
        tool_calls := none } model none)
  else none

/-- The reader loop of `handleStream`'s background task: one pass over the
upstream values, threading the `isFirst` flag (which flips on the first
actual emission, not on skipped chunks). -/
def streamLoop (model : String) (now : Nat → Nat) : List CFStreamValue → Bool → List Frame
  | [], _ => []
  | v :: rest, isFirst =>
    match frameFor model now isFirst v with
    | some f => f :: streamLoop model now rest false
    | none => streamLoop model now rest isFirst

/-- The finish reason of the terminal chunk:
`params.tools ? 'tool_calls' : 'stop'`. -/
def streamFinishReason (hasTools : Bool) : String :=
  if hasTools then "tool_calls" else "stop"

/-- Whether `params.tools` is set by `chat`:
`request.tools && request.tools.length > 0`. -/
def paramsHasTools (tools : Option (List Tool)) : Bool :=
  match tools with
  | some ts => ts.length > 0
  | none => false

/-- The frames `CloudflareAIProvider.handleStream`'s background task writes
to the output stream.  `vals` are the upstream values read before the
upstream either reports `done` (`fault = none`) or raises (`fault = some
msg`).  On normal exhaustion, one terminal chunk with the finish reason and
one `[DONE]` sentinel follow the data frames; on a fault, the `catch` logs
and the `finally` closes the writer, so nothing further is written. -/
def handleStream (model : String) (now : Nat → Nat) (hasTools : Bool)
    (vals : List CFStreamValue) (fault : Option String) : List Frame :=
  match fault with
  | some _ => streamLoop model now vals true
  | none =>
    streamLoop model now vals true ++
      [createStreamChunk { role := none, content := none, tool_calls := none } model
        (some (streamFinishReason hasTools)),
       Frame.done]

/-- A frame carrying a finish reason (the terminal chunk of a stream). -/
def isTerminalFrame : Frame → Bool
  | .chunk _ (some _) => true
  | _ => false

/-- The delta role of the first frame of a list, when that frame is a
chunk. -/
def firstDeltaRole (frames : List Frame) : Option String :=
  match frames.head? with
  | some (Frame.chunk d _) => d.role
  | _ => none

/-- Whether the emission decision produces a frame for an upstream chunk:
true exactly when the chunk carries a non-empty tool-call array or
non-empty text. -/
def emitsChunk (v : CFStreamValue) : Bool :=
  (((streamToolCallsOf v).getD []).length != 0) || (streamTextOf v != "")

/-! ### Helper lemmas: the fallback loop -/

/-- If every index in `pre` is a failing attempt and `k` is a successful
one, the loop returns the success and invokes exactly `pre ++ [k]`, in
order. -/
theorem fallbackLoop_append_success (rotate : Nat → RotationOutcome)
    (pre : List Nat) (k : Nat) (post : List Nat) (resp : ProviderResponse)
    (hfail : ∀ i ∈ pre, attemptFails (rotate i) = true)
    (hk : rotate k = .ok resp) (hs : resp.success = true) :
    ∀ lastError, fallbackLoop rotate (pre ++ k :: post) lastError = (resp, pre ++ [k]) := by
  induction pre with
  | nil =>
    intro lastError
    simp [fallbackLoop, hk, hs]
  | cons i pre ih =>
    intro lastError
    have hi : attemptFails (rotate i) = true := hfail i (List.mem_cons_self i pre)
    have hrest : ∀ j ∈ pre, attemptFails (rotate j) = true := by
      intro j hj
      exact hfail j (List.mem_cons_of_mem i hj)
    cases hro : rotate i with
    | ok r =>
      have hrs : r.success = false := by
        rw [hro] at hi
        simpa [attemptFails] using hi
      simp only [List.cons_append, fallbackLoop, hro, hrs, Bool.false_eq_true, if_false,
        List.append_eq]
      rw [ih hrest r.error]
    | exn m =>
      simp only [List.cons_append, fallbackLoop, hro, List.append_eq]
      rw [ih hrest (some m)]

/-- Final value of the `lastError` accumulator over a run of the loop. -/
def finalLastError (rotate : Nat → RotationOutcome) : List Nat → Option String → Option String
  | [], lastError => lastError
  | i :: rest, _ => finalLastError rotate rest (lastObserved (rotate i))

/-- If every attempt fails, the loop invokes every index in order and
returns the aggregate failure built from the last observed error. -/
theorem fallbackLoop_all_fail (rotate : Nat → RotationOutcome) (idxs : List Nat)
    (h : ∀ i ∈ idxs, attemptFails (rotate i) = true) :
    ∀ lastError, fallbackLoop rotate idxs lastError =
      (allProvidersFailed (finalLastError rotate idxs lastError), idxs) := by
  induction idxs with
  | nil => intro lastError; rfl
  | cons i rest ih =>
    intro lastError
    have hi : attemptFails (rotate i) = true := h i (List.mem_cons_self i rest)
    have hrest : ∀ j ∈ rest, attemptFails (rotate j) = true := by
      intro j hj
      exact h j (List.mem_cons_of_mem i hj)
    cases hro : rotate i with
    | ok r =>
      have hrs : r.success = false := by
        rw [hro] at hi
        simpa [attemptFails] using hi
      simp only [fallbackLoop, hro, hrs, Bool.false_eq_true, if_false]
      rw [ih hrest r.error]
      simp [finalLastError, hro, lastObserved]
    | exn m =>
      simp only [fallbackLoop, hro]
      rw [ih hrest (some m)]
      simp [finalLastError, hro, lastObserved]

/-- The final `lastError` of a run whose last attempted index is `k` is the
error observed at `k`. -/
theorem finalLastError_concat (rotate : Nat → RotationOutcome) (idxs : List Nat) (k : Nat) :
    ∀ lastError, finalLastError rotate (idxs ++ [k]) lastError = lastObserved (rotate k) := by
  induction idxs with
  | nil => intro lastError; rfl
  | cons i rest ih =>
    intro lastError
    simp only [List.cons_append, finalLastError]
    exact ih _

/-- Reduction of `executeWithFallback` once resolution is known to
succeed. -/
theorem executeWithFallback_ok (routes : List (String × List ProviderConfig)) (path : String)
    (rotate : Nat → RotationOutcome) (providers : List ProviderConfig)
    (hres : getProvidersForRoute routes path = .ok providers) :
    executeWithFallback routes path rotate =
      .ok (fallbackLoop rotate (List.range providers.length) none) := by
  unfold executeWithFallback
  rw [hres]

/-! ### C1 -/

/-- C1: if route resolution yields a provider list in which the first `M`
attempts fail and attempt `M+1` (index `M`) succeeds, `executeWithFallback`
returns that attempt's result and the trace of invoked providers is exactly
`[0, …, M]`: providers are attempted in configured order and no provider
after the successful one is invoked. -/
theorem executeWithFallback_first_success
    (routes : List (String × List ProviderConfig)) (path : String)
    (rotate : Nat → RotationOutcome) (providers : List ProviderConfig)
    (M : Nat) (resp : ProviderResponse)
    (hres : getProvidersForRoute routes path = .ok providers)
    (hM : M < providers.length)
    (hfail : ∀ i, i < M → attemptFails (rotate i) = true)
    (hsucc : rotate M = .ok resp) (hs : resp.success = true) :
    executeWithFallback routes path rotate = .ok (resp, List.range (M + 1)) := by
  rw [executeWithFallback_ok routes path rotate providers hres]
  have hrange : List.range providers.length =
      List.range M ++ M :: (List.range providers.length).drop (M + 1) := by
    conv_lhs => rw [← List.take_append_drop (M + 1) (List.range providers.length)]
    rw [List.take_range, Nat.min_eq_left hM, List.range_succ, List.append_assoc,
      List.singleton_append]
  rw [hrange,
    fallbackLoop_append_success rotate (List.range M) M _ resp
      (fun i hi => hfail i (List.mem_range.mp hi)) hsucc hs none,
    ← List.range_succ]

/-- Concrete route table for witnesses: one route with two providers. -/
def wRoutes : List (String × List ProviderConfig) :=
  [("/fast", [⟨"cloudflare", "a"⟩, ⟨"cloudflare", "b"⟩])]

/-- Concrete successful provider response for witnesses. -/
def wOk : ProviderResponse := ⟨true, none, none, none, none⟩

/-- Concrete rotation behavior for the C1 witness: provider 1 raises,
provider 2 succeeds. -/
def wRotate : Nat → RotationOutcome :=
  fun i => if i == 0 then .exn "boom" else .ok wOk

/-- Witness for C1 at a concrete route table with two providers: provider 1
raises, provider 2 succeeds, the success is returned and exactly providers
1 and 2 are invoked, in order. -/
theorem executeWithFallback_first_success_witness :
    getProvidersForRoute wRoutes "/fast" = .ok [⟨"cloudflare", "a"⟩, ⟨"cloudflare", "b"⟩] ∧
    (1 : Nat) < 2 ∧
    (∀ i, i < 1 → attemptFails (wRotate i) = true) ∧
    wRotate 1 = .ok wOk ∧ wOk.success = true ∧
    executeWithFallback wRoutes "/fast" wRotate = .ok (wOk, List.range 2) :=
  ⟨by rfl, by decide, by decide, by rfl, by rfl,
    executeWithFallback_first_success wRoutes "/fast" wRotate
      [⟨"cloudflare", "a"⟩, ⟨"cloudflare", "b"⟩] 1 wOk (by rfl) (by decide) (by decide)
      (by rfl) (by rfl)⟩

/-! ### C2 -/

/-- C2: when every provider attempt fails — by a returned `Failure` or by a
raised fault, which is caught so the call still returns a value rather than
propagating a fault — `executeWithFallback` returns the aggregate failure:
success flag false, status classification 500 (not the not-found 404), and
a message that contains the text of the last observed error. -/
theorem executeWithFallback_all_fail
    (routes : List (String × List ProviderConfig)) (path : String)
    (rotate : Nat → RotationOutcome) (providers : List ProviderConfig) (s : String)
    (hres : getProvidersForRoute routes path = .ok providers)
    (hne : providers.length ≠ 0)
    (hfail : ∀ i, i < providers.length → attemptFails (rotate i) = true)
    (hlast : lastObserved (rotate (providers.length - 1)) = some s)
    (hs : s ≠ "") :
    executeWithFallback routes path rotate =
      .ok (allProvidersFailed (some s), List.range providers.length) ∧
    (allProvidersFailed (some s)).success = false ∧
    (allProvidersFailed (some s)).statusCode = some 500 ∧
    (allProvidersFailed (some s)).statusCode ≠ some 404 ∧
    ∃ t u, (allProvidersFailed (some s)).error = some (t ++ s ++ u) := by
  refine ⟨?_, rfl, rfl, by simp [allProvidersFailed], ?_⟩
  · rw [executeWithFallback_ok routes path rotate providers hres]
    rw [fallbackLoop_all_fail rotate (List.range providers.length)
      (fun i hi => hfail i (List.mem_range.mp hi)) none]
    have hrange : List.range providers.length =
        List.range (providers.length - 1) ++ [providers.length - 1] := by
      conv_lhs =>
        rw [show providers.length = (providers.length - 1) + 1 from
          (Nat.succ_pred_eq_of_pos (Nat.pos_of_ne_zero hne)).symm]
      rw [List.range_succ]
    have hfin : finalLastError rotate (List.range providers.length) none = some s := by
      rw [hrange, finalLastError_concat, hlast]
    rw [hfin]
  · refine ⟨"All providers failed. Last error: ", "", ?_⟩
    simp [allProvidersFailed, lastErrorText, hs]

/-- Concrete rotation behavior for the C2 witness: provider 1 returns a
failure response, provider 2 raises. -/
def wRotateFail : Nat → RotationOutcome :=
  fun i => if i == 0 then .ok ⟨false, none, none, some "bad key", some 502⟩ else .exn "kaput"

/-- Witness for C2 at a concrete route table with two providers, both
failing; the aggregate failure carries status 500 and embeds the last
error text. -/
theorem executeWithFallback_all_fail_witness :
    getProvidersForRoute wRoutes "/fast" = .ok [⟨"cloudflare", "a"⟩, ⟨"cloudflare", "b"⟩] ∧
    [(⟨"cloudflare", "a"⟩ : ProviderConfig), ⟨"cloudflare", "b"⟩].length ≠ 0 ∧
    (∀ i, i < 2 → attemptFails (wRotateFail i) = true) ∧
    lastObserved (wRotateFail 1) = some "kaput" ∧
    ("kaput" : String) ≠ "" ∧
    (executeWithFallback wRoutes "/fast" wRotateFail =
      .ok (allProvidersFailed (some "kaput"), List.range 2) ∧
    (allProvidersFailed (some "kaput")).success = false ∧
    (allProvidersFailed (some "kaput")).statusCode = some 500 ∧
    (allProvidersFailed (some "kaput")).statusCode ≠ some 404 ∧
    ∃ t u, (allProvidersFailed (some "kaput")).error = some (t ++ "kaput" ++ u)) :=
  ⟨by rfl, by decide, by decide, by rfl, by decide,
    executeWithFallback_all_fail wRoutes "/fast" wRotateFail
      [⟨"cloudflare", "a"⟩, ⟨"cloudflare", "b"⟩] "kaput" (by rfl) (by decide) (by decide)
      (by rfl) (by decide)⟩

/-! ### C10 -/

/-- C10: when the resolved provider list is empty, the loop body never
runs — the invocation trace is empty, so no token manager (hence no
credential rotator and no adapter) is invoked — and the result is the
aggregate failure with message `All providers failed. Last error: Unknown
error` and status classification 500. -/
theorem executeWithFallback_empty_providers
    (routes : List (String × List ProviderConfig)) (path : String)
    (rotate : Nat → RotationOutcome)
    (hres : getProvidersForRoute routes path = .ok []) :
    executeWithFallback routes path rotate = .ok (allProvidersFailed none, []) ∧
    (allProvidersFailed none).error = some "All providers failed. Last error: Unknown error" ∧
    (allProvidersFailed none).statusCode = some 500 := by
  refine ⟨?_, rfl, rfl⟩
  rw [executeWithFallback_ok routes path rotate [] hres]
  rfl

/-- Witness for C10 at a route table whose route maps to an empty provider
list. -/
theorem executeWithFallback_empty_providers_witness :
    getProvidersForRoute [("/fast", ([] : List ProviderConfig))] "/fast" = .ok [] ∧
    (executeWithFallback [("/fast", ([] : List ProviderConfig))] "/fast"
        (fun _ => RotationOutcome.exn "never called") = .ok (allProvidersFailed none, []) ∧
    (allProvidersFailed none).error = some "All providers failed. Last error: Unknown error" ∧
    (allProvidersFailed none).statusCode = some 500) :=
  ⟨by rfl,
    executeWithFallback_empty_providers [("/fast", ([] : List ProviderConfig))] "/fast"
      (fun _ => RotationOutcome.exn "never called") (by rfl)⟩

/-! ### C7 -/

/-- C7: when no route key equals the normalized path but some configured
key is a leading substring of it, resolution returns the provider list of
the first such route in table insertion order (`routes = pre ++ e :: post`
with no key of `pre` matching); resolution is a pure function of the
loaded table and the path, so the result is determined by the
configuration load order. -/
theorem getProvidersForRoute_first_leading_match
    (routes : List (String × List ProviderConfig)) (path : String)
    (pre post : List (String × List ProviderConfig)) (e : String × List ProviderConfig)
    (hsplit : routes = pre ++ e :: post)
    (hexact : ∀ r ∈ routes, r.1 ≠ normalizePath path)
    (hpreNo : ∀ r ∈ pre, strStartsWith (normalizePath path) r.1 = false)
    (he : strStartsWith (normalizePath path) e.1 = true) :
    getProvidersForRoute routes path = .ok e.2 := by
  have hfind1 : routes.find? (fun r => r.1 == normalizePath path) = none := by
    rw [List.find?_eq_none]
    intro x hx
    simpa using hexact x hx
  have hfind2 : routes.find? (fun r => strStartsWith (normalizePath path) r.1) = some e := by
    rw [List.find?_eq_some]
    refine ⟨he, pre, post, hsplit, ?_⟩
    intro a ha
    simp [hpreNo a ha]
  simp only [getProvidersForRoute, hfind1, hfind2]

/-- Concrete route table for the C7 witness: two routes, the second is the
first whose key leads the path. -/
def wRoutesTwo : List (String × List ProviderConfig) :=
  [("/api", [⟨"openai", "x"⟩]), ("/deep", [⟨"cloudflare", "y"⟩])]

/-- Witness for C7: path `/deep-think` has no exact match; `/api` does not
lead it, `/deep` does, and its provider list is returned. -/
theorem getProvidersForRoute_first_leading_match_witness :
    ([("/api", [⟨"openai", "x"⟩]), ("/deep", [⟨"cloudflare", "y"⟩])] :
        List (String × List ProviderConfig)) =
      [("/api", [⟨"openai", "x"⟩])] ++ ("/deep", [⟨"cloudflare", "y"⟩]) :: [] ∧
    (∀ r ∈ wRoutesTwo, r.1 ≠ normalizePath "/deep-think") ∧
    (∀ r ∈ [(("/api", [⟨"openai", "x"⟩]) : String × List ProviderConfig)],
      strStartsWith (normalizePath "/deep-think") r.1 = false) ∧
    strStartsWith (normalizePath "/deep-think") "/deep" = true ∧
    getProvidersForRoute wRoutesTwo "/deep-think" = .ok [⟨"cloudflare", "y"⟩] :=
  ⟨by rfl, by decide, by decide, by rfl,
    getProvidersForRoute_first_leading_match wRoutesTwo "/deep-think"
      [("/api", [⟨"openai", "x"⟩])] [] ("/deep", [⟨"cloudflare", "y"⟩])
      (by rfl) (by decide) (by decide) (by rfl)⟩

/-! ### C8 -/

/-- C8: when no route key equals the normalized path and no configured key
is a leading substring of it, resolution returns the first-inserted
route's provider list when the table is non-empty, and fails with a 404
`ProxyError` (the not-found classification) when the table is empty. -/
theorem getProvidersForRoute_default_or_notFound
    (routes : List (String × List ProviderConfig)) (path : String)
    (hexact : ∀ r ∈ routes, r.1 ≠ normalizePath path)
    (hlead : ∀ r ∈ routes, strStartsWith (normalizePath path) r.1 = false) :
    (∀ e rest, routes = e :: rest → getProvidersForRoute routes path = .ok e.2) ∧
    (routes = [] → getProvidersForRoute routes path =
      .error { message := "No providers configured for route: " ++ path, statusCode := 404 }) := by
  have hfind1 : routes.find? (fun r => r.1 == normalizePath path) = none := by
    rw [List.find?_eq_none]
    intro x hx
    simpa using hexact x hx
  have hfind2 : routes.find? (fun r => strStartsWith (normalizePath path) r.1) = none := by
    rw [List.find?_eq_none]
    intro x hx
    simp [hlead x hx]
  constructor
  · intro e rest hr
    subst hr
    simp only [getProvidersForRoute, hfind1, hfind2]
  · intro hr
    subst hr
    rfl

/-- Witness for C8: the table `wRoutesTwo` has no key matching or leading
`/zzz`, so the first-inserted route is used; the empty table case is also
instantiated (vacuously on the non-empty side). -/
theorem getProvidersForRoute_default_or_notFound_witness :
    (∀ r ∈ wRoutesTwo, r.1 ≠ normalizePath "/zzz") ∧
    (∀ r ∈ wRoutesTwo, strStartsWith (normalizePath "/zzz") r.1 = false) ∧
    ((∀ e rest, wRoutesTwo = e :: rest →
        getProvidersForRoute wRoutesTwo "/zzz" = .ok e.2) ∧
      (wRoutesTwo = [] → getProvidersForRoute wRoutesTwo "/zzz" =
        .error { message := "No providers configured for route: " ++ "/zzz",
                 statusCode := 404 })) :=
  ⟨by decide, by decide,
    getProvidersForRoute_default_or_notFound wRoutesTwo "/zzz" (by decide) (by decide)⟩

/-! ### Helper lemmas: the stream loop -/

/-- Closed form of the emission decision. -/
theorem frameFor_eq (model : String) (now : Nat → Nat) (b : Bool) (v : CFStreamValue) :
    frameFor model now b v =
      if ((streamToolCallsOf v).getD []).length > 0 then
        some (Frame.chunk
          { role := if b then some "assistant" else none
            content := none
            tool_calls := some (convertToolCalls now ((streamToolCallsOf v).getD [])) } none)
      else if streamTextOf v ≠ "" then
        some (Frame.chunk
          { role := if b then some "assistant" else none
            content := some (streamTextOf v)
            tool_calls := none } none)
      else none := rfl

/-- Every frame the emission decision produces is a data chunk: no finish
reason, and role `assistant` exactly on the first emission. -/
theorem frameFor_shape (model : String) (now : Nat → Nat) (b : Bool) (v : CFStreamValue)
    (f : Frame) (h : frameFor model now b v = some f) :
    ∃ d, f = Frame.chunk d none ∧ d.role = (if b then some "assistant" else none) := by
  rw [frameFor_eq] at h
  by_cases h1 : ((streamToolCallsOf v).getD []).length > 0
  · rw [if_pos h1] at h
    obtain rfl := Option.some.inj h
    exact ⟨_, rfl, rfl⟩
  · rw [if_neg h1] at h
    by_cases h2 : streamTextOf v ≠ ""
    · rw [if_pos h2] at h
      obtain rfl := Option.some.inj h
      exact ⟨_, rfl, rfl⟩
    · rw [if_neg h2] at h
      exact Option.noConfusion h

/-- Every frame in the reader loop's output is a data chunk (no finish
reason). -/
theorem streamLoop_not_terminal (model : String) (now : Nat → Nat) (vals : List CFStreamValue) :
    ∀ b f, f ∈ streamLoop model now vals b → ∃ d, f = Frame.chunk d none := by
  induction vals with
  | nil =>
    intro b f hf
    simp [streamLoop] at hf
  | cons v rest ih =>
    intro b f hf
    unfold streamLoop at hf
    cases hfr : frameFor model now b v with
    | some g =>
      rw [hfr] at hf
      rcases List.mem_cons.mp hf with rfl | hf
      · obtain ⟨d, rfl, _⟩ := frameFor_shape model now b v f hfr
        exact ⟨d, rfl⟩
      · exact ih false f hf
    | none =>
      rw [hfr] at hf
      exact ih b f hf

/-- When the loop starts with the first-emission flag set and emits
anything, its first frame carries role `assistant`. -/
theorem streamLoop_first_role (model : String) (now : Nat → Nat) (vals : List CFStreamValue) :
    streamLoop model now vals true = [] ∨
    firstDeltaRole (streamLoop model now vals true) = some "assistant" := by
  induction vals with
  | nil => exact Or.inl rfl
  | cons v rest ih =>
    unfold streamLoop
    cases hfr : frameFor model now true v with
    | some g =>
      obtain ⟨d, rfl, hrole⟩ := frameFor_shape model now true v g hfr
      right
      simp only [firstDeltaRole, List.head?_cons, hrole, if_true]
    | none => exact ih

/-- The emission decision produces a frame exactly when the upstream chunk
carries a non-empty tool-call array or non-empty text. -/
theorem frameFor_isSome (model : String) (now : Nat → Nat) (b : Bool) (v : CFStreamValue) :
    (frameFor model now b v).isSome = emitsChunk v := by
  rw [frameFor_eq]
  unfold emitsChunk
  by_cases h1 : ((streamToolCallsOf v).getD []).length > 0
  · rw [if_pos h1]
    have hb : (((streamToolCallsOf v).getD []).length != 0) = true := by
      simp only [bne_iff_ne, ne_eq]
      omega
    simp [hb]
  · rw [if_neg h1]
    have hb : (((streamToolCallsOf v).getD []).length != 0) = false := by
      simp only [bne_eq_false_iff_eq]
      omega
    by_cases h2 : streamTextOf v ≠ ""
    · rw [if_pos h2]
      have ht : (streamTextOf v != "") = true := by
        simpa only [bne_iff_ne, ne_eq] using h2
      simp [hb, ht]
    · rw [if_neg h2]
      have ht : (streamTextOf v != "") = false := by
        simp only [bne_eq_false_iff_eq]
        simpa using h2
      simp [hb, ht]

/-- One output frame per emitting upstream chunk: the loop's output length
is the count of upstream chunks satisfying the emission condition. -/
theorem streamLoop_length (model : String) (now : Nat → Nat) (vals : List CFStreamValue) :
    ∀ b, (streamLoop model now vals b).length = vals.countP emitsChunk := by
  induction vals with
  | nil => intro b; rfl
  | cons v rest ih =>
    intro b
    rw [List.countP_cons]
    unfold streamLoop
    cases hfr : frameFor model now b v with
    | some g =>
      have : emitsChunk v = true := by rw [← frameFor_isSome model now b v, hfr]; rfl
      simp [this, ih false]
    | none =>
      have : emitsChunk v = false := by rw [← frameFor_isSome model now b v, hfr]; rfl
      simp [this, ih b]

/-! ### C4 -/

/-- Counterexample to C4 as stated: for a streaming request whose upstream
sequence is exhausted without yielding any value, the adapter still emits a
chunk (the terminal one), so a first emitted chunk exists, but its delta
carries no role at all — in particular not `assistant`. -/
theorem handleStream_first_role_cex :
    firstDeltaRole (handleStream "m" (fun _ => 0) false [] none) ≠ some "assistant" ∧
    handleStream "m" (fun _ => 0) false [] none ≠ [] := by
  decide

/-- C4 (amended): for every streaming request whose upstream sequence is
exhausted normally, the emitted frames are data chunks followed by exactly
one terminal chunk carrying the finish reason — `tool_calls` when the
request declared a non-empty tools list, else `stop` — and exactly one
`[DONE]` sentinel, after the terminal chunk and never before; no data
chunk carries a finish reason or is a sentinel, and whenever at least one
data chunk is emitted the first emitted chunk's delta contains role
`assistant`. -/
theorem handleStream_stream_shape (model : String) (now : Nat → Nat)
    (tools : Option (List Tool)) (vals : List CFStreamValue) :
    ∃ data,
      handleStream model now (paramsHasTools tools) vals none =
        data ++ [Frame.chunk { role := none, content := none, tool_calls := none }
          (some (if paramsHasTools tools = true then "tool_calls" else "stop")), Frame.done] ∧
      (∀ f ∈ data, isTerminalFrame f = false ∧ f ≠ Frame.done) ∧
      (data ≠ [] → firstDeltaRole data = some "assistant") := by
  refine ⟨streamLoop model now vals true, ?_, ?_, ?_⟩
  · cases h : paramsHasTools tools <;>
      simp [handleStream, streamFinishReason, createStreamChunk, h]
  · intro f hf
    obtain ⟨d, rfl⟩ := streamLoop_not_terminal model now vals true f hf
    exact ⟨rfl, by simp⟩
  · intro hne
    rcases streamLoop_first_role model now vals with h | h
    · exact absurd h hne
    · exact h

/-! ### C5 -/

/-- Counterexample to C5 as stated: an upstream chunk carrying the empty
string produces no emitted chunk at all, so the adapter does not emit
exactly one canonical chunk per upstream chunk. -/
theorem streamLoop_per_chunk_cex :
    (streamLoop "m" (fun _ => 0) [CFStreamValue.str ""] true).length ≠
      [CFStreamValue.str ""].length := by
  decide

/-- C5 (amended): the adapter emits at most one canonical chunk per
upstream chunk — exactly one for each upstream chunk that carries a
non-empty tool-call array or non-empty text, none otherwise — and when an
upstream chunk carries both tool-call data and textual content the emitted
chunk carries the tool-call data (content absent, converted tool calls
present). -/
theorem streamLoop_per_chunk (model : String) (now : Nat → Nat) (vals : List CFStreamValue)
    (isFirst : Bool) :
    (streamLoop model now vals isFirst).length = vals.countP emitsChunk ∧
    (∀ text tcs b, tcs ≠ [] →
      frameFor model now b (CFStreamValue.obj text (some tcs)) =
        some (Frame.chunk
          { role := if b then some "assistant" else none
            content := none
            tool_calls := some (convertToolCalls now tcs) } none)) := by
  refine ⟨streamLoop_length model now vals isFirst, ?_⟩
  intro text tcs b htcs
  rw [frameFor_eq]
  have hpos : ((streamToolCallsOf (CFStreamValue.obj text (some tcs))).getD []).length > 0 := by
    simpa [streamToolCallsOf, List.length_pos] using htcs
  rw [if_pos hpos]
  rfl

/-! ### C6 -/

/-- Counterexample to C6 as stated: when the upstream raises after one text
chunk, the adapter's output stream is closed containing only that data
chunk — it neither ends with a terminal chunk plus `[DONE]` nor is a
structured error: a truncated stream. -/
theorem handleStream_fault_truncates_cex :
    handleStream "m" (fun _ => 0) false [CFStreamValue.str "hello"] (some "boom") =
      [Frame.chunk { role := some "assistant", content := some "hello", tool_calls := none }
        none] ∧
    (handleStream "m" (fun _ => 0) false [CFStreamValue.str "hello"] (some "boom")).getLast? ≠
      some Frame.done ∧
    (handleStream "m" (fun _ => 0) false [CFStreamValue.str "hello"]
      (some "boom")).countP isTerminalFrame = 0 := by
  decide

/-- C6 (amended): when consumption of the upstream stream fails mid-stream,
the failure is caught (logged) and the output stream is closed after
exactly the data chunks already emitted — no terminal chunk and no `[DONE]`
sentinel follow, so the caller receives a truncated stream; when
consumption completes without fault, the stream terminates as one coherent
canonical stream: the data chunks, one terminal finish-reason chunk, then
the `[DONE]` sentinel. -/
theorem handleStream_fault_behavior (model : String) (now : Nat → Nat) (hasTools : Bool)
    (vals : List CFStreamValue) (msg : String) :
    (handleStream model now hasTools vals (some msg) = streamLoop model now vals true ∧
      ∀ f ∈ handleStream model now hasTools vals (some msg),
        isTerminalFrame f = false ∧ f ≠ Frame.done) ∧
    handleStream model now hasTools vals none =
      streamLoop model now vals true ++
        [Frame.chunk { role := none, content := none, tool_calls := none }
          (some (streamFinishReason hasTools)), Frame.done] := by
  refine ⟨⟨rfl, ?_⟩, rfl⟩
  intro f hf
  obtain ⟨d, rfl⟩ := streamLoop_not_terminal model now vals true f hf
  exact ⟨rfl, by simp⟩

/-! ### C3 -/

/-- C3: every canonical response `handleNonStream` builds has one choice,
and that choice satisfies: either no tool calls are present and the finish
reason is `stop`, or tool calls are present, the message content is null
and the finish reason is `tool_calls`. -/
theorem handleNonStream_choice_shape (model : String) (now : Nat → Nat) (upstream : CFResult) :
    ∃ r c, (handleNonStream model now upstream).response = some r ∧
      r.choices.head? = some c ∧
      ((c.message.tool_calls = none ∧ c.finish_reason = "stop") ∨
       (c.message.tool_calls ≠ none ∧ c.message.content = none ∧
        c.finish_reason = "tool_calls")) := by
  cases upstream with
  | str s =>
    exact ⟨createOpenAIResponse s model,
      ⟨⟨"assistant", some s, none⟩, "stop"⟩, rfl, rfl, Or.inl ⟨rfl, rfl⟩⟩
  | obj resp tcs =>
    match tcs with
    | none =>
      exact ⟨createOpenAIResponse (resp.getD "") model,
        ⟨⟨"assistant", some (resp.getD ""), none⟩, "stop"⟩, rfl, rfl, Or.inl ⟨rfl, rfl⟩⟩
    | some l =>
      by_cases hl : l.length > 0
      · have heq : handleNonStream model now (.obj resp (some l)) =
            ⟨true, some ⟨model, [⟨⟨"assistant", none, some (convertToolCalls now l)⟩,
              "tool_calls"⟩]⟩, none, none, none⟩ := by
          simp [handleNonStream, createOpenAIResponse, updateFirstChoice, hl]
        rw [heq]
        exact ⟨_, _, rfl, rfl, Or.inr ⟨by simp, rfl, rfl⟩⟩
      · have heq : handleNonStream model now (.obj resp (some l)) =
            ⟨true, some (createOpenAIResponse (resp.getD "") model), none, none, none⟩ := by
          simp [handleNonStream, extractContent, hl]
        rw [heq]
        exact ⟨createOpenAIResponse (resp.getD "") model,
          ⟨⟨"assistant", some (resp.getD ""), none⟩, "stop"⟩, rfl, rfl, Or.inl ⟨rfl, rfl⟩⟩

/-! ### Helper lemmas: decimal representations -/

/-- Unfolding of `Nat.toDigitsCore` at positive fuel. -/
theorem toDigitsCore_succ_eq (fuel n : Nat) (ds : List Char) :
    Nat.toDigitsCore 10 (fuel + 1) n ds =
      if n / 10 = 0 then Nat.digitChar (n % 10) :: ds
      else Nat.toDigitsCore 10 fuel (n / 10) (Nat.digitChar (n % 10) :: ds) := rfl

/-- Every character produced by `Nat.toDigitsCore` is a digit character or
comes from the accumulator. -/
theorem toDigitsCore_chars :
    ∀ (fuel n : Nat) (ds : List Char) (c : Char),
      c ∈ Nat.toDigitsCore 10 fuel n ds → c ∈ ds ∨ ∃ k, k < 10 ∧ c = Nat.digitChar k := by
  intro fuel
  induction fuel with
  | zero => intro n ds c hc; exact Or.inl hc
  | succ fuel ih =>
    intro n ds c hc
    rw [toDigitsCore_succ_eq] at hc
    by_cases h : n / 10 = 0
    · rw [if_pos h] at hc
      rcases List.mem_cons.mp hc with rfl | hc2
      · exact Or.inr ⟨n % 10, Nat.mod_lt n (by omega), rfl⟩
      · exact Or.inl hc2
    · rw [if_neg h] at hc
      rcases ih (n / 10) (Nat.digitChar (n % 10) :: ds) c hc with h2 | h2
      · rcases List.mem_cons.mp h2 with rfl | h3
        · exact Or.inr ⟨n % 10, Nat.mod_lt n (by omega), rfl⟩
        · exact Or.inl h3
      · exact Or.inr h2

/-- No digit character is an underscore. -/
theorem digitChar_ne_underscore : ∀ k, k < 10 → Nat.digitChar k ≠ '_' := by decide

/-- The characters of `Nat.repr`. -/
theorem repr_data_eq (n : Nat) : (Nat.repr n).data = Nat.toDigitsCore 10 (n + 1) n [] := rfl

/-- The decimal representation of a natural number contains no
underscore. -/
theorem repr_no_underscore (n : Nat) : '_' ∉ (Nat.repr n).data := by
  rw [repr_data_eq]
  intro h
  rcases toDigitsCore_chars (n + 1) n [] '_' h with h0 | ⟨k, hk, he⟩
  · simp at h0
  · exact digitChar_ne_underscore k hk he.symm

/-- Inverse of a digit character. -/
def decodeDigit (c : Char) : Nat :=
  if c = '1' then 1 else if c = '2' then 2 else if c = '3' then 3 else if c = '4' then 4
  else if c = '5' then 5 else if c = '6' then 6 else if c = '7' then 7 else if c = '8' then 8
  else if c = '9' then 9 else 0

/-- Decimal decoding of a character list, most significant digit first. -/
def decodeDecimal (l : List Char) : Nat :=
  l.foldl (fun acc c => 10 * acc + decodeDigit c) 0

/-- `decodeDigit` inverts `Nat.digitChar` on digits. -/
theorem decodeDigit_digitChar : ∀ k, k < 10 → decodeDigit (Nat.digitChar k) = k := by decide

/-- `Nat.toDigitsCore` prepends to its accumulator. -/
theorem toDigitsCore_append10 :
    ∀ (fuel n : Nat) (ds : List Char),
      Nat.toDigitsCore 10 fuel n ds = Nat.toDigitsCore 10 fuel n [] ++ ds := by
  intro fuel
  induction fuel with
  | zero => intro n ds; rfl
  | succ fuel ih =>
    intro n ds
    rw [toDigitsCore_succ_eq, toDigitsCore_succ_eq fuel n []]
    by_cases h : n / 10 = 0
    · rw [if_pos h, if_pos h]
      rfl
    · rw [if_neg h, if_neg h,
        ih (n / 10) (Nat.digitChar (n % 10) :: ds), ih (n / 10) [Nat.digitChar (n % 10)]]
      simp

/-- Decoding a one-element extension. -/
theorem decodeDecimal_concat (xs : List Char) (d : Char) :
    decodeDecimal (xs ++ [d]) = 10 * decodeDecimal xs + decodeDigit d := by
  simp [decodeDecimal, List.foldl_append]

/-- `decodeDecimal` inverts `Nat.toDigitsCore` given enough fuel. -/
theorem decode_toDigitsCore :
    ∀ (fuel n : Nat), n < fuel → decodeDecimal (Nat.toDigitsCore 10 fuel n []) = n := by
  intro fuel
  induction fuel with
  | zero => intro n h; omega
  | succ fuel ih =>
    intro n h
    rw [toDigitsCore_succ_eq]
    by_cases h0 : n / 10 = 0
    · rw [if_pos h0]
      have hd := decodeDigit_digitChar (n % 10) (by omega)
      simp only [decodeDecimal, List.foldl_cons, List.foldl_nil, hd]
      omega
    · rw [if_neg h0, toDigitsCore_append10 fuel (n / 10) [Nat.digitChar (n % 10)],
        show [Nat.digitChar (n % 10)] = [] ++ [Nat.digitChar (n % 10)] from rfl,
        ← List.append_assoc, List.append_nil, decodeDecimal_concat,
        ih (n / 10) (by omega), decodeDigit_digitChar (n % 10) (by omega)]
      omega

/-- Distinct naturals have distinct decimal character lists. -/
theorem repr_data_inj (m n : Nat) (h : (Nat.repr m).data = (Nat.repr n).data) : m = n := by
  have hm := decode_toDigitsCore (m + 1) m (Nat.lt_succ_self m)
  have hn := decode_toDigitsCore (n + 1) n (Nat.lt_succ_self n)
  rw [repr_data_eq, repr_data_eq] at h
  rw [← hm, h, hn]

/-- Splitting concatenations at an underscore that does not occur in the
suffixes: the suffixes agree. -/
theorem append_underscore_inj :
    ∀ (xs a ys b : List Char), '_' ∉ a → '_' ∉ b →
      xs ++ '_' :: a = ys ++ '_' :: b → a = b := by
  intro xs
  induction xs with
  | nil =>
    intro a ys b ha hb h
    cases ys with
    | nil => exact (List.cons.inj h).2
    | cons y ys =>
      obtain ⟨h1, h2⟩ := List.cons.inj h
      exact absurd (h2 ▸ List.mem_append_right ys (List.mem_cons_self '_' b)) ha
  | cons x xs ih =>
    intro a ys b ha hb h
    cases ys with
    | nil =>
      obtain ⟨h1, h2⟩ := List.cons.inj h
      exact absurd (h2 ▸ List.mem_append_right xs (List.mem_cons_self '_' a)) hb
    | cons y ys =>
      exact ih a ys b ha hb (List.cons.inj h).2

/-- Two synthesized tool-call ids agree only when their positions agree:
the position is recoverable from the id as the digit run after the last
underscore, whatever the two timestamps were. -/
theorem toolCallId_inj_index (t1 t2 i j : Nat) (h : toolCallId t1 i = toolCallId t2 j) :
    i = j := by
  have hd := congrArg String.data h
  simp only [toolCallId, String.data_append, List.append_assoc, List.cons_append,
    List.singleton_append, List.nil_append] at hd
  have hd2 := (List.cons.inj (List.cons.inj (List.cons.inj (List.cons.inj
    (List.cons.inj hd).2).2).2).2).2
  exact repr_data_inj i j
    (append_underscore_inj _ _ _ _ (repr_no_underscore i) (repr_no_underscore j) hd2)

/-- Every id in the converted batch starting at `start` is the synthesized
id of some position at or after `start`. -/
theorem convertToolCallsGo_id_mem (now : Nat → Nat) :
    ∀ (calls : List CFToolCall) (start : Nat) (tc : ToolCall),
      tc ∈ convertToolCallsGo now start calls →
      ∃ i, start ≤ i ∧ tc.id = toolCallId (now i) i := by
  intro calls
  induction calls with
  | nil =>
    intro start tc h
    simp [convertToolCallsGo] at h
  | cons call rest ih =>
    intro start tc h
    simp only [convertToolCallsGo] at h
    rcases List.mem_cons.mp h with rfl | h2
    · exact ⟨start, Nat.le_refl start, rfl⟩
    · obtain ⟨i, hi, he⟩ := ih (start + 1) tc h2
      exact ⟨i, by omega, he⟩

/-- The ids of a converted batch are pairwise distinct, whatever the clock
did. -/
theorem convertToolCallsGo_ids_nodup (now : Nat → Nat) :
    ∀ (calls : List CFToolCall) (start : Nat),
      ((convertToolCallsGo now start calls).map (fun tc => tc.id)).Nodup := by
  intro calls
  induction calls with
  | nil => intro start; simp [convertToolCallsGo]
  | cons call rest ih =>
    intro start
    simp only [convertToolCallsGo, List.map_cons, List.nodup_cons]
    refine ⟨?_, ih (start + 1)⟩
    intro hmem
    obtain ⟨tc, htc, hid⟩ := List.mem_map.mp hmem
    obtain ⟨i, hi, he⟩ := convertToolCallsGo_id_mem now rest (start + 1) tc htc
    have : i = start := toolCallId_inj_index (now i) (now start) i start (by rw [← he, hid])
    omega

/-! ### C9 -/

/-- C9: within one converted response, the synthesized tool-call ids —
each built from a timestamp and the call's position in the batch — are
pairwise distinct, for every batch and every timestamp behavior. -/
theorem convertToolCalls_ids_nodup (now : Nat → Nat) (cfToolCalls : List CFToolCall) :
    ((convertToolCalls now cfToolCalls).map (fun tc => tc.id)).Nodup :=
  convertToolCallsGo_ids_nodup now cfToolCalls 0
